import Mathlib

/-!
Verification of the scribe processing ledger and pipeline orchestration.

The definitions below are a shallow embedding of the repository's core:
`src/scribe/ledger.py` (the SQLite-backed `processed` table), the three
renderers in `src/scribe/formatter.py`, and the per-file orchestration in
`src/scribe/main.py` (`_process_file`, `_save_markdown`, run modes).
Timestamps are abstract `Nat` clock values supplied by callers (the
source reads wall-clock ISO strings); `datetime` formatting is external
library behaviour and is modelled by pre-formatted string fields.
-/

namespace Scribe

/-- Processing status of a ledger row (the `status` column of the
`processed` table in ledger.py). -/
inductive Status
| pending
| processing
| done
| failed
deriving DecidableEq

/-- One row of the `processed` table (ledger.py `_SCHEMA`): primary key
`file_path` is held separately as the row key. -/
structure Entry where
  status : Status
  created_at : Nat
  completed_at : Option Nat
  error : Option String
deriving DecidableEq

/-- The `processed` table: rows in insertion order.  SQLite's PRIMARY KEY
uniqueness is a property of reachable states, not of the representation. -/
abbrev Ledger := List (String × Entry)

/-- `SELECT ... WHERE file_path = ? ... fetchone()`: first row keyed `p`. -/
def lookup (s : Ledger) (p : String) : Option Entry :=
  (s.find? (fun r => r.1 == p)).map Prod.snd

/-- `UPDATE processed SET ... WHERE cond`: rewrite every row satisfying
`cond`, leaving key and row order unchanged. -/
def update_rows (s : Ledger) (cond : String × Entry → Bool) (g : Entry → Entry) : Ledger :=
  s.map (fun r => if cond r then (r.1, g r.2) else r)

/-- `Ledger.is_processed`: entry exists and `status = 'done'`. -/
def is_processed (s : Ledger) (p : String) : Bool :=
  match lookup s p with
  | some e => e.status == .done
  | none => false

/-- `Ledger.is_known`: any entry exists for the path. -/
def is_known (s : Ledger) (p : String) : Bool :=
  (lookup s p).isSome

/-- `Ledger.mark_pending`: `INSERT OR IGNORE` of a fresh `pending` row. -/
def mark_pending (s : Ledger) (p : String) (now : Nat) : Ledger :=
  if is_known s p then s else s ++ [(p, ⟨.pending, now, none, none⟩)]

/-- `Ledger.mark_processing`: `UPDATE ... SET status='processing' WHERE file_path=p`. -/
def mark_processing (s : Ledger) (p : String) : Ledger :=
  update_rows s (fun r => r.1 == p) (fun e => { e with status := .processing })

/-- `Ledger.mark_done`: set `status='done'`, `completed_at=now`, `error=NULL`. -/
def mark_done (s : Ledger) (p : String) (now : Nat) : Ledger :=
  update_rows s (fun r => r.1 == p)
    (fun e => { e with status := .done, completed_at := some now, error := none })

/-- `Ledger.mark_failed`: set `status='failed'`, `completed_at=now`, `error=message`. -/
def mark_failed (s : Ledger) (p : String) (msg : String) (now : Nat) : Ledger :=
  update_rows s (fun r => r.1 == p)
    (fun e => { e with status := .failed, completed_at := some now, error := some msg })

/-- `Ledger.get_failed`: paths of all rows with `status='failed'`. -/
def get_failed (s : Ledger) : List String :=
  (s.filter (fun r => r.2.status == .failed)).map Prod.fst

/-- `Ledger.reset_failed`: every `failed` row becomes `pending` with
`completed_at`/`error` cleared; returns the new table and the SQL
`rowcount` (number of rows matched by the `WHERE status='failed'`). -/
def reset_failed (s : Ledger) : Ledger × Nat :=
  (update_rows s (fun r => r.2.status == .failed)
     (fun e => { e with status := .pending, completed_at := none, error := none }),
   (s.filter (fun r => r.2.status == .failed)).length)

/-- `Ledger.get_pending`: paths of all rows with `status='pending'`. -/
def get_pending (s : Ledger) : List String :=
  (s.filter (fun r => r.2.status == .pending)).map Prod.fst

/-- The status recorded for a path, if any. -/
def statusOf (s : Ledger) (p : String) : Option Status :=
  (lookup s p).map Entry.status

/-- The error column recorded for a path, if the path is known. -/
def errorOf (s : Ledger) (p : String) : Option (Option String) :=
  (lookup s p).map Entry.error

/-- All rows stored for a path (one in every reachable state). -/
def rowsFor (s : Ledger) (p : String) : List Entry :=
  (s.filter (fun r => r.1 == p)).map Prod.snd

/- Formatter data model (formatter.py): the shape of a Deepgram response. -/

/-- One utterance dict: `u.get("speaker", 0)` and `u.get("transcript", "")`
read optional keys with defaults. -/
structure Utterance where
  speaker : Option Nat
  transcript : Option String
deriving DecidableEq

/-- `u.get("speaker", 0)`. -/
def uSpeaker (u : Utterance) : Nat := u.speaker.getD 0

/-- Python `str.strip()` at the character-list level (ASCII whitespace):
drop leading and trailing whitespace. -/
def stripChars (cs : List Char) : List Char :=
  ((cs.dropWhile Char.isWhitespace).reverse.dropWhile Char.isWhitespace).reverse

/-- Python `str.strip()`. -/
def pyStrip (s : String) : String := String.mk (stripChars s.toList)

/-- Python `str.split("\n")` at the character-list level: `""` splits to
`[""]`, and every newline separates (empty pieces are kept). -/
def splitNl : List Char → List (List Char)
  | [] => [[]]
  | c :: cs =>
      if c = '\n' then [] :: splitNl cs
      else
        match splitNl cs with
        | [] => [[c]]
        | l :: ls => (c :: l) :: ls

/-- Python `text.split("\n")`. -/
def pySplitLines (s : String) : List String := (splitNl s.toList).map String.mk

/-- `u.get("transcript", "").strip()`. -/
def uText (u : Utterance) : String := pyStrip (u.transcript.getD "")

structure Alternative where
  transcript : Option String
deriving DecidableEq

structure Channel where
  alternatives : List Alternative
deriving DecidableEq

/-- The parts of the Deepgram response dict the formatter reads:
`results.utterances` (possibly absent) and `results.channels`. -/
structure Response where
  utterances : Option (List Utterance)
  channels : List Channel
deriving DecidableEq

/-- `_get_utterances`. -/
def get_utterances (r : Response) : Option (List Utterance) := r.utterances

/-- `_get_transcript_text`: `channels[0].alternatives[0].transcript` with
empty-string defaults at every level. -/
def get_transcript_text (r : Response) : String :=
  match r.channels with
  | [] => ""
  | c :: _ =>
    match c.alternatives with
    | [] => ""
    | a :: _ => a.transcript.getD ""

/-- Distinct elements of a list in order of first appearance (used to model
the cardinality of the Python set in `_count_speakers`, and to express
"labels in order of first appearance" in claims). -/
def firstsAux (seen : List Nat) : List Nat → List Nat
  | [] => []
  | a :: l => if a ∈ seen then firstsAux seen l else a :: firstsAux (a :: seen) l

def firsts (l : List Nat) : List Nat := firstsAux [] l

/-- `_count_speakers`: `len({u.get("speaker", 0) for u in utterances})`. -/
def count_speakers (us : List Utterance) : Nat := (firsts (us.map uSpeaker)).length

def pad2 (n : Nat) : String := if n < 10 then "0" ++ toString n else toString n

/-- `_format_duration` (the float is truncated with `int()`; durations are
modelled as whole nonnegative seconds). -/
def format_duration (seconds : Nat) : String :=
  let total := seconds
  let hrs := total / 3600
  let remainder := total % 3600
  let mins := remainder / 60
  let secs := remainder % 60
  if hrs > 0 then toString hrs ++ ":" ++ pad2 mins ++ ":" ++ pad2 secs
  else toString mins ++ ":" ++ pad2 secs

/-- summarizer.py `Summary` dataclass. -/
structure Summary where
  title : String
  summary : String
  key_points : List String
  action_items : List String
  decisions : List String
  open_questions : List String
deriving DecidableEq

/-- One output line of the HTML renderer.  The speaker-labelled paragraph
of `_format_multi_speaker` is kept structured so that claims about
"Speaker N:" labels can be stated; every other line is the literal string
the source builds.  `lineStr` reproduces the source's f-strings exactly. -/
inductive FLine
| speakerPara (n : Nat) (text : String)
| plain (s : String)
deriving DecidableEq

def lineStr : FLine → String
  | .speakerPara n text => "<p><b>Speaker " ++ toString n ++ ":</b> " ++ text ++ "</p>"
  | .plain s => s

/-- One heading/list block of `_summary_html` (emitted only if `items`). -/
def section_html (heading : String) (items : List String) : List FLine :=
  if items.isEmpty then []
  else [FLine.plain ("<h2>" ++ heading ++ "</h2>"), FLine.plain "<ul>"]
       ++ items.map (fun i => FLine.plain ("<li>" ++ i ++ "</li>"))
       ++ [FLine.plain "</ul>"]

/-- `_summary_html` (a dataclass instance is always truthy; only `None` is
skipped). -/
def summary_html : Option Summary → List FLine
  | none => []
  | some su =>
      [FLine.plain ("<p>" ++ su.summary ++ "</p>")]
      ++ section_html "Key Points" su.key_points
      ++ section_html "Action Items" su.action_items
      ++ section_html "Decisions" su.decisions
      ++ section_html "Open Questions" su.open_questions
      ++ [FLine.plain "<hr>"]

/-- `_format_multi_speaker`: the label number is the raw 0-indexed speaker
tag plus one; utterances with empty stripped text are skipped. -/
def format_multi_speaker (us : List Utterance) (title date_str duration_str : String)
    (summary : Option Summary) : List FLine :=
  [FLine.plain ("<h1>" ++ title ++ " - " ++ date_str ++ "</h1>"),
   FLine.plain ("<p><i>Duration: " ++ duration_str ++ " | Speakers: "
     ++ toString (count_speakers us) ++ "</i></p>")]
  ++ summary_html summary ++ [FLine.plain "<hr>"]
  ++ us.filterMap (fun u =>
       if uText u == "" then none
       else some (FLine.speakerPara (uSpeaker u + 1) (uText u)))

/-- `_format_single_speaker`. -/
def format_single_speaker (us : List Utterance) (title date_str duration_str : String)
    (summary : Option Summary) : List FLine :=
  [FLine.plain ("<h1>" ++ title ++ " - " ++ date_str ++ "</h1>"),
   FLine.plain ("<p><i>Duration: " ++ duration_str ++ "</i></p>")]
  ++ summary_html summary ++ [FLine.plain "<hr>"]
  ++ us.filterMap (fun u =>
       if uText u == "" then none
       else some (FLine.plain ("<p>" ++ uText u ++ "</p>")))

/-- `_format_plain_text`. -/
def format_plain_text (text title date_str duration_str : String)
    (summary : Option Summary) : List FLine :=
  [FLine.plain ("<h1>" ++ title ++ " - " ++ date_str ++ "</h1>"),
   FLine.plain ("<p><i>Duration: " ++ duration_str ++ "</i></p>")]
  ++ summary_html summary ++ [FLine.plain "<hr>"]
  ++ (pySplitLines text).filterMap (fun par =>
       if pyStrip par == "" then none
       else some (FLine.plain ("<p>" ++ pyStrip par ++ "</p>")))

/-- db.py `RecordingMetadata`.  The `datetime` value is modelled by the two
formatted renditions the code uses (`"%b %-d, %Y"` for headings,
`"%Y-%m-%d"` for filenames) since date formatting is external library
behaviour; `duration_seconds` holds whole nonnegative seconds. -/
structure RecordingMetadata where
  title : String
  dateHeader : String
  dateISO : String
  duration_seconds : Nat
deriving DecidableEq

/-- Python `x or y` for an optional string `x`: `None` and `""` are falsy. -/
def pyOr (x : Option String) (y : String) : String :=
  match x with
  | some t => if t == "" then y else t
  | none => y

/-- Layout dispatch of `format_transcript`: a truthy (non-`None`, nonempty)
utterance list with more than one distinct speaker tag selects the
multi-speaker layout; a truthy list otherwise the single-speaker layout;
anything else the plain-text fallback. -/
def format_transcript_lines (r : Response) (m : RecordingMetadata)
    (title : Option String) (summary : Option Summary) : List FLine :=
  let display_title := pyOr title m.title
  let date_str := m.dateHeader
  let duration_str := format_duration m.duration_seconds
  match get_utterances r with
  | some (u :: us) =>
      if count_speakers (u :: us) > 1 then
        format_multi_speaker (u :: us) display_title date_str duration_str summary
      else
        format_single_speaker (u :: us) display_title date_str duration_str summary
  | _ => format_plain_text (get_transcript_text r) display_title date_str duration_str summary

/-- `format_transcript`: the joined HTML string. -/
def format_transcript (r : Response) (m : RecordingMetadata)
    (title : Option String) (summary : Option Summary) : String :=
  String.intercalate "\n" ((format_transcript_lines r m title summary).map lineStr)

/-- The speaker-label numbers occurring in rendered output, in order. -/
def speakerLabels (ls : List FLine) : List Nat :=
  ls.filterMap (fun l => match l with | .speakerPara n _ => some n | .plain _ => none)

/-- The distinct speaker tags a response carries, in order of first
appearance in the utterance list. -/
def respTags (r : Response) : List Nat :=
  match get_utterances r with
  | some us => firsts (us.map uSpeaker)
  | none => []

/- Markdown renderer (`format_transcript_markdown` and helpers). -/

def section_md (heading : String) (items : List String) : List String :=
  if items.isEmpty then []
  else ["", "## " ++ heading, ""] ++ items.map (fun i => "- " ++ i)

def summary_md : Option Summary → List String
  | none => []
  | some su =>
      ["", su.summary]
      ++ section_md "Key Points" su.key_points
      ++ section_md "Action Items" su.action_items
      ++ section_md "Decisions" su.decisions
      ++ section_md "Open Questions" su.open_questions
      ++ ["", "---"]

def format_multi_speaker_md (us : List Utterance) (title date_str duration_str : String)
    (summary : Option Summary) : String :=
  String.intercalate "\n"
    (["# " ++ title ++ " - " ++ date_str, "",
      "*Duration: " ++ duration_str ++ " | Speakers: " ++ toString (count_speakers us) ++ "*"]
     ++ summary_md summary ++ ["", "---", ""]
     ++ us.flatMap (fun u =>
          if uText u == "" then []
          else ["**Speaker " ++ toString (uSpeaker u + 1) ++ ":** " ++ uText u, ""]))

def format_single_speaker_md (us : List Utterance) (title date_str duration_str : String)
    (summary : Option Summary) : String :=
  String.intercalate "\n"
    (["# " ++ title ++ " - " ++ date_str, "", "*Duration: " ++ duration_str ++ "*"]
     ++ summary_md summary ++ ["", "---", ""]
     ++ us.flatMap (fun u => if uText u == "" then [] else [uText u, ""]))

def format_plain_text_md (text title date_str duration_str : String)
    (summary : Option Summary) : String :=
  String.intercalate "\n"
    (["# " ++ title ++ " - " ++ date_str, "", "*Duration: " ++ duration_str ++ "*"]
     ++ summary_md summary ++ ["", "---", ""]
     ++ (pySplitLines text).flatMap (fun par =>
          if pyStrip par == "" then [] else [pyStrip par, ""]))

def format_transcript_markdown (r : Response) (m : RecordingMetadata)
    (title : Option String) (summary : Option Summary) : String :=
  let display_title := pyOr title m.title
  let date_str := m.dateHeader
  let duration_str := format_duration m.duration_seconds
  match get_utterances r with
  | some (u :: us) =>
      if count_speakers (u :: us) > 1 then
        format_multi_speaker_md (u :: us) display_title date_str duration_str summary
      else
        format_single_speaker_md (u :: us) display_title date_str duration_str summary
  | _ => format_plain_text_md (get_transcript_text r) display_title date_str duration_str summary

/- `_save_markdown` (main.py). -/

/-- The title sanitization in `_save_markdown`: keep only alphanumerics,
space, hyphen, underscore, then `strip()` leading/trailing whitespace
(ASCII model of Python `str.isalnum`). -/
def safe_title (title : String) : String :=
  pyStrip (String.mk (title.toList.filter
    (fun c => c.isAlphanum || c == ' ' || c == '-' || c == '_')))

/-- The sanitization as the spec words it: retain only alphanumerics,
space, hyphen, underscore from the title and drop every other character —
stated for comparison with `safe_title` (which additionally trims). -/
def sanitizeTitleSpec (title : String) : String :=
  String.mk (title.toList.filter
    (fun c => c.isAlphanum || c == ' ' || c == '-' || c == '_'))

/-- The filename `_save_markdown` writes to. -/
def save_markdown_filename (title date_str : String) : String :=
  date_str ++ " - " ++ safe_title title ++ ".md"

/- Pipeline orchestrator (main.py `_process_file` and run modes). -/

/-- main.py `Config`.  `output_dir` records whether a markdown output
directory is configured (the path itself is external I/O). -/
structure Config where
  api_key : String
  notes_folder : String
  notes_account : String
  output_dir : Bool
  openai_api_key : Option String
deriving DecidableEq

instance {e a : Type} [DecidableEq e] [DecidableEq a] : DecidableEq (Except e a) := fun x y =>
  match x, y with
  | .error u, .error v =>
      if h : u = v then .isTrue (by rw [h]) else .isFalse (fun hh => h (Except.error.inj hh))
  | .ok u, .ok v =>
      if h : u = v then .isTrue (by rw [h]) else .isFalse (fun hh => h (Except.ok.inj hh))
  | .error _, .ok _ => .isFalse (fun hh => Except.noConfusion hh)
  | .ok _, .error _ => .isFalse (fun hh => Except.noConfusion hh)

/-- Results of the external collaborator calls for one `_process_file`
invocation: each Python call either returns a value or raises, modelled
as `Except` carrying the exception's `str(e)` message.  `publishRes`
distinguishes a raised error from a returned `False`. -/
structure Env where
  metadataRes : Except String RecordingMetadata
  transcribeRes : Except String Response
  summarizeRes : Except String Summary
  publishRes : Except String Bool
  writeRes : Except String Unit
deriving DecidableEq

/-- One pipeline stage collaborator invocation. -/
inductive Stage
| metadata
| transcription
| summarization
| rendering
| publishing
| archival
deriving DecidableEq

/-- `Path(file_path).name`: the text after the last `/` (computed over the
character list so that it evaluates by kernel reduction). -/
def baseName (p : String) : String :=
  String.mk (p.toList.foldl (fun acc c => if c = '/' then [] else acc ++ [c]) [])

/-- The transcript text and speaker count fed to the summarizer
(main.py: join of nonempty stripped utterance transcripts, or the plain
transcript fallback with speaker count 1). -/
def summaryInput (r : Response) : String × Nat :=
  match get_utterances r with
  | some (u :: us) =>
      (String.intercalate " " (((u :: us).map uText).filter (fun t => !(t == ""))),
       count_speakers (u :: us))
  | _ => (get_transcript_text r, 1)

/-- Python truthiness of the optional OpenAI credential (`None` and `""`
are falsy). -/
def keyTruthy (k : Option String) : Bool :=
  match k with
  | some s => !(s == "")
  | none => false

/-- Whether the summarize collaborator is invoked at all: a truthy
credential and nonempty transcript text. -/
def summarizeCalled (cfg : Config) (r : Response) : Bool :=
  keyTruthy cfg.openai_api_key && !((summaryInput r).1 == "")

/-- The generated (title, summary) pair after the optional summarization
stage: `none` when the stage is skipped or its error is caught locally. -/
def generatedOf (cfg : Config) (env : Env) (r : Response) : Option String × Option String :=
  if summarizeCalled cfg r then
    match env.summarizeRes with
    | .ok res => (some res.title, some res.summary)
    | .error _ => (none, none)
  else (none, none)

/-- main.py passes `generated_summary` — a plain string — where the
formatter expects a `Summary` object.  `_summary_html` treats a falsy
value (`None` or `""`) as absent, but a nonempty string reaches
`summary.summary` and raises `AttributeError` with this `str(e)`.  The
rendering stage therefore faults exactly when a nonempty generated
summary string is present. -/
def renderFault (generated_summary : Option String) : Option String :=
  match generated_summary with
  | some s => if s == "" then none else some "'str' object has no attribute 'summary'"
  | none => none

/-- Outcome of the stage sequence for one file: `none` means every
required stage succeeded (`mark_done` follows); `some msg` is the message
recorded by `mark_failed`.  Summarizer errors are caught locally and never
appear; a publisher `False` return becomes the `RuntimeError` message. -/
def processOutcome (cfg : Config) (env : Env) : Option String :=
  match env.metadataRes with
  | .error e => some e
  | .ok _ =>
    match env.transcribeRes with
    | .error e => some e
    | .ok r =>
      match renderFault (generatedOf cfg env r).2 with
      | some e => some e
      | none =>
        match env.publishRes with
        | .error e => some e
        | .ok false => some "Apple Notes creation failed"
        | .ok true =>
          if cfg.output_dir then
            match env.writeRes with
            | .error e => some e
            | .ok _ => none
          else none

/-- `note_title = generated_title or metadata.title`. -/
def noteTitleOf (cfg : Config) (env : Env) (m : RecordingMetadata) (r : Response) : String :=
  pyOr (generatedOf cfg env r).1 m.title

/-- What one `_process_file` call produces: the new ledger, the stage
collaborators invoked in order, the failure notifications emitted, and the
markdown file written by the archival step (filename, content), if any. -/
structure RunResult where
  ledger : Ledger
  calls : List Stage
  notifications : List String
  archived : Option (String × String)
deriving DecidableEq

/-- main.py `_process_file`: skip if done; `mark_pending` if unknown;
`mark_processing`; run the stages, catching any raised error at the
function boundary into `mark_failed` plus one notification naming the
file; `mark_done` on success.  The function is total: no exception
escapes to the caller. -/
def processFile (cfg : Config) (env : Env) (s : Ledger) (p : String) (now : Nat) : RunResult :=
  if is_processed s p then
    { ledger := s, calls := [], notifications := [], archived := none }
  else
    let s1 := if is_known s p then s else mark_pending s p now
    let s2 := mark_processing s1 p
    let name := baseName p
    let failWith := fun (calls : List Stage) (e : String) =>
      RunResult.mk (mark_failed s2 p e now) calls ["Failed: " ++ name] none
    match env.metadataRes with
    | .error e => failWith [.metadata] e
    | .ok metadata =>
      match env.transcribeRes with
      | .error e => failWith [.metadata, .transcription] e
      | .ok response =>
        let gen := generatedOf cfg env response
        let summCalls : List Stage :=
          if summarizeCalled cfg response then [.summarization] else []
        let note_title := pyOr gen.1 metadata.title
        let calls0 := [Stage.metadata, Stage.transcription] ++ summCalls ++ [Stage.rendering]
        match renderFault gen.2 with
        | some e => failWith calls0 e
        | none =>
          match env.publishRes with
          | .error e => failWith (calls0 ++ [Stage.publishing]) e
          | .ok false => failWith (calls0 ++ [Stage.publishing]) "Apple Notes creation failed"
          | .ok true =>
            if cfg.output_dir then
              let markdown := format_transcript_markdown response metadata gen.1 none
              match env.writeRes with
              | .error e => failWith (calls0 ++ [Stage.publishing, Stage.archival]) e
              | .ok _ =>
                  { ledger := mark_done s2 p now,
                    calls := calls0 ++ [Stage.publishing, Stage.archival],
                    notifications := [],
                    archived := some (save_markdown_filename note_title metadata.dateISO, markdown) }
            else
              { ledger := mark_done s2 p now,
                calls := calls0 ++ [Stage.publishing],
                notifications := [],
                archived := none }

/- State-machine semantics at the granularity of single mutating ledger
calls, for the §4.2 edge claims. -/

/-- The primitive mutating ledger calls. -/
inductive PrimOp
| pend (p : String) (t : Nat)
| proc (p : String)
| fin (p : String) (t : Nat)
| fail (p : String) (m : String) (t : Nat)
| reset
deriving DecidableEq

def applyPrim : PrimOp → Ledger → Ledger
  | .pend p t, s => mark_pending s p t
  | .proc p, s => mark_processing s p
  | .fin p t, s => mark_done s p t
  | .fail p m t, s => mark_failed s p m t
  | .reset, s => (reset_failed s).1

def applyPrims (ops : List PrimOp) (s : Ledger) : Ledger :=
  ops.foldl (fun s o => applyPrim o s) s

/-- The sequence of mutating ledger calls one `_process_file` invocation
makes from state `s`. -/
def procPrims (cfg : Config) (env : Env) (s : Ledger) (p : String) (t : Nat) : List PrimOp :=
  if is_processed s p then []
  else
    (if is_known s p then [] else [.pend p t]) ++ [.proc p] ++
    (match processOutcome cfg env with
     | none => [.fin p t]
     | some m => [.fail p m t])

/-- One operation of a run mode: a `_process_file` call, the backfill
loop's `mark_pending` on a not-yet-known path, or retry mode's
`reset_failed`. -/
inductive OrchOp
| process (cfg : Config) (env : Env) (p : String) (t : Nat)
| backfillMark (p : String) (t : Nat)
| retryReset
deriving DecidableEq

def orchPrims : OrchOp → Ledger → List PrimOp
  | .process cfg env p t, s => procPrims cfg env s p t
  | .backfillMark p t, s => if is_known s p then [] else [.pend p t]
  | .retryReset, _ => [.reset]

/-- The primitive steps of a primitive-op list, each paired with the
ledger state it fires from. -/
def primTrace : List PrimOp → Ledger → List (PrimOp × Ledger)
  | [], _ => []
  | o :: os, s => (o, s) :: primTrace os (applyPrim o s)

/-- All primitive steps of a run-mode operation sequence. -/
def orchTrace : List OrchOp → Ledger → List (PrimOp × Ledger)
  | [], _ => []
  | o :: os, s => primTrace (orchPrims o s) s ++ orchTrace os (applyPrims (orchPrims o s) s)

/-- The §4.2 edge relation as the claim states it: a status is unchanged
or moves along pending→processing, processing→done, processing→failed, or
failed→pending — the last only when the step is the explicit reset. -/
def claimEdge (o : PrimOp) (a b : Status) : Prop :=
  a = b
  ∨ (a = .pending ∧ b = .processing)
  ∨ (a = .processing ∧ b = .done)
  ∨ (a = .processing ∧ b = .failed)
  ∨ (a = .failed ∧ b = .pending ∧ o = .reset)

/-- The edges the code actually realizes: additionally failed→processing,
taken when `_process_file` is re-invoked on a failed (non-done) path. -/
def amendEdge (o : PrimOp) (a b : Status) : Prop :=
  claimEdge o a b ∨ (a = .failed ∧ b = .processing)

instance (o : PrimOp) (a b : Status) : Decidable (claimEdge o a b) := by
  unfold claimEdge; infer_instance

instance (o : PrimOp) (a b : Status) : Decidable (amendEdge o a b) := by
  unfold amendEdge; infer_instance

/-- The §3 error/status invariant: `done` rows carry no error, `failed`
rows always carry one. -/
def ErrInv (s : Ledger) : Prop :=
  ∀ p e, lookup s p = some e →
    (e.status = .done → e.error = none) ∧ (e.status = .failed → e.error ≠ none)

/-- A primitive step fired from state `s` moves every entry's status only
along the (amended) §4.2 edges. -/
def SafeStep (o : PrimOp) (s : Ledger) : Prop :=
  ∀ p a b, statusOf s p = some a → statusOf (applyPrim o s) p = some b → amendEdge o a b

/- ------------------------------------------------------------------ -/
/- Theorems                                                            -/
/- ------------------------------------------------------------------ -/

theorem lookup_nil (p : String) : lookup ([] : Ledger) p = none := rfl

theorem lookup_cons (q : String) (e : Entry) (s : Ledger) (p : String) :
    lookup ((q, e) :: s) p = if q = p then some e else lookup s p := by
  by_cases h : q = p <;> simp [lookup, List.find?_cons, h]

theorem lookup_append_single (s : Ledger) (p : String) (e : Entry) (q : String) :
    lookup (s ++ [(p, e)]) q =
      match lookup s q with
      | some x => some x
      | none => if p = q then some e else none := by
  induction s with
  | nil => simp [lookup_cons, lookup]
  | cons r s ih =>
      obtain ⟨a, b⟩ := r
      by_cases h : a = q <;> simp [lookup_cons, h, ih]

theorem update_rows_cons (a : String) (b : Entry) (s : Ledger)
    (cond : String × Entry → Bool) (g : Entry → Entry) :
    update_rows ((a, b) :: s) cond g =
      (if cond (a, b) then (a, g b) else (a, b)) :: update_rows s cond g := by
  by_cases hc : cond (a, b) <;> simp [update_rows, hc]

theorem lookup_update_rows (s : Ledger) (cond : String × Entry → Bool)
    (g : Entry → Entry) (q : String) :
    lookup (update_rows s cond g) q =
      (s.find? (fun r => r.1 == q)).map (fun r => if cond r then g r.2 else r.2) := by
  induction s with
  | nil => rfl
  | cons r s ih =>
      obtain ⟨a, b⟩ := r
      rw [update_rows_cons]
      by_cases hc : cond (a, b)
      · rw [if_pos hc, lookup_cons]
        by_cases h : a = q
        · subst h; simp [List.find?_cons, hc]
        · simp [List.find?_cons, h, hc, ih]
      · rw [if_neg hc, lookup_cons]
        by_cases h : a = q
        · subst h; simp [List.find?_cons, hc]
        · simp [List.find?_cons, h, hc, ih]

theorem is_known_eq_false_iff (s : Ledger) (p : String) :
    is_known s p = false ↔ lookup s p = none := by
  unfold is_known
  cases h : lookup s p <;> simp [h]

theorem is_known_eq_true_iff (s : Ledger) (p : String) :
    is_known s p = true ↔ (lookup s p).isSome := by
  unfold is_known
  cases h : lookup s p <;> simp [h]

theorem lookup_mark_key (s : Ledger) (p : String) (g : Entry → Entry) (q : String) :
    lookup (update_rows s (fun r => r.1 == p) g) q =
      if q = p then (lookup s q).map g else lookup s q := by
  rw [lookup_update_rows]
  by_cases h : q = p
  · subst h
    cases hf : s.find? (fun r => r.1 == q) with
    | none => simp [lookup, hf]
    | some r =>
        have hr : r.1 = q := by
          have := List.find?_some hf
          simpa using this
        simp [lookup, hf, hr]
  · cases hf : s.find? (fun r => r.1 == q) with
    | none => simp [lookup, hf, h]
    | some r =>
        have hr : r.1 = q := by
          have := List.find?_some hf
          simpa using this
        simp [lookup, hf, hr, h]

theorem lookup_mark_processing (s : Ledger) (p q : String) :
    lookup (mark_processing s p) q =
      if q = p then (lookup s q).map (fun e => { e with status := .processing })
      else lookup s q :=
  lookup_mark_key s p _ q

theorem lookup_mark_done (s : Ledger) (p : String) (t : Nat) (q : String) :
    lookup (mark_done s p t) q =
      if q = p then
        (lookup s q).map (fun e =>
          { e with status := .done, completed_at := some t, error := none })
      else lookup s q :=
  lookup_mark_key s p _ q

theorem lookup_mark_failed (s : Ledger) (p m : String) (t : Nat) (q : String) :
    lookup (mark_failed s p m t) q =
      if q = p then
        (lookup s q).map (fun e =>
          { e with status := .failed, completed_at := some t, error := some m })
      else lookup s q :=
  lookup_mark_key s p _ q

theorem lookup_reset_failed (s : Ledger) (q : String) :
    lookup (reset_failed s).1 q =
      (lookup s q).map (fun e =>
        if e.status == .failed then
          { e with status := .pending, completed_at := none, error := none }
        else e) := by
  have hdef : (reset_failed s).1 =
      update_rows s (fun r => r.2.status == .failed)
        (fun e => { e with status := .pending, completed_at := none, error := none }) := rfl
  rw [hdef, lookup_update_rows]
  cases hf : s.find? (fun r => r.1 == q) <;> simp [lookup, hf]

theorem lookup_mark_pending (s : Ledger) (p : String) (t : Nat) (q : String) :
    lookup (mark_pending s p t) q =
      if is_known s p then lookup s q
      else if q = p then some ⟨.pending, t, none, none⟩
      else lookup s q := by
  by_cases hk : is_known s p
  · simp [mark_pending, hk]
  · have hk' : is_known s p = false := by simpa using hk
    have hnone : lookup s p = none := (is_known_eq_false_iff s p).mp hk'
    rw [if_neg hk]
    unfold mark_pending
    rw [if_neg hk, lookup_append_single]
    by_cases h : q = p
    · subst h; simp [hnone]
    · cases hl : lookup s q with
      | some x => simp [hl, h]
      | none =>
          simp only [hl]
          rw [if_neg (fun hpq : p = q => h hpq.symm), if_neg h]

theorem is_known_mark_processing (s : Ledger) (p q : String) :
    is_known (mark_processing s p) q = is_known s q := by
  unfold is_known
  rw [lookup_mark_processing]
  by_cases h : q = p
  · rw [if_pos h]; cases lookup s q <;> rfl
  · rw [if_neg h]

theorem is_known_mark_pending_self (s : Ledger) (p : String) (t : Nat) :
    is_known (mark_pending s p t) p = true := by
  unfold is_known
  rw [lookup_mark_pending]
  by_cases hk : is_known s p = true
  · rw [if_pos hk]
    exact (is_known_eq_true_iff s p).mp hk
  · rw [if_neg hk, if_pos rfl]; rfl

theorem statusOf_mark_pending_self (s : Ledger) (p : String) (t : Nat)
    (hk : is_known s p = false) :
    statusOf (mark_pending s p t) p = some .pending := by
  unfold statusOf
  rw [lookup_mark_pending]
  rw [if_neg (by simp [hk]), if_pos rfl]
  rfl

theorem statusOf_mark_processing_self (s : Ledger) (p : String)
    (hk : is_known s p = true) :
    statusOf (mark_processing s p) p = some .processing := by
  unfold statusOf
  rw [lookup_mark_processing, if_pos rfl]
  have := (is_known_eq_true_iff s p).mp hk
  cases hl : lookup s p with
  | none => rw [hl] at this; cases this
  | some e => rfl

theorem is_processed_false_statusOf (s : Ledger) (p : String)
    (h : is_processed s p = false) : statusOf s p ≠ some .done := by
  unfold statusOf
  unfold is_processed at h
  cases hl : lookup s p with
  | none => simp
  | some e =>
      rw [hl] at h
      have h' : (e.status == Status.done) = false := h
      simp at h'
      simp [h']

theorem filter_key_nil_of_unknown (s : Ledger) (p : String)
    (hk : is_known s p = false) : s.filter (fun r => r.1 == p) = [] := by
  have hnone : lookup s p = none := (is_known_eq_false_iff s p).mp hk
  have hf : s.find? (fun r => r.1 == p) = none := by
    unfold lookup at hnone
    cases h : s.find? (fun r => r.1 == p) with
    | none => rfl
    | some v => rw [h] at hnone; cases hnone
  exact List.filter_eq_nil_iff.mpr (fun a ha => by
    have := List.find?_eq_none.mp hf a ha
    simpa using this)

/-- Claim C4 counterexample: on an unknown path, `mark_processing` is a
SQL UPDATE matching no row, so the path stays unknown — `isKnown` does
not become true after `markProcessing` on a previously unknown path. -/
theorem c4_counterexample :
    is_known ([] : Ledger) "a" = false
    ∧ is_known (mark_processing ([] : Ledger) "a") "a" = false := by
  decide

/-- Claim C4 (amended): `isKnown(p)` is false before any mark* call and
becomes true after `markPending(p)`; but `markProcessing`, `markDone` and
`markFailed` on a previously unknown `p` are row-matching UPDATEs that
insert nothing, so `p` stays unknown after them. -/
theorem c4_is_known_amended (s : Ledger) (p : String) (t : Nat) (m : String) :
    is_known ([] : Ledger) p = false
    ∧ is_known (mark_pending s p t) p = true
    ∧ (is_known s p = false →
        is_known (mark_processing s p) p = false
        ∧ is_known (mark_done s p t) p = false
        ∧ is_known (mark_failed s p m t) p = false) := by
  refine ⟨rfl, is_known_mark_pending_self s p t, ?_⟩
  intro hk
  have hnone : lookup s p = none := (is_known_eq_false_iff s p).mp hk
  refine ⟨?_, ?_, ?_⟩
  · rw [is_known_eq_false_iff, lookup_mark_processing, if_pos rfl, hnone]; rfl
  · rw [is_known_eq_false_iff, lookup_mark_done, if_pos rfl, hnone]; rfl
  · rw [is_known_eq_false_iff, lookup_mark_failed, if_pos rfl, hnone]; rfl

theorem c4_is_known_amended_witness :
    is_known ([] : Ledger) "b" = false
    ∧ is_known (mark_pending [] "b" 0) "b" = true
    ∧ (is_known (mark_processing ([] : Ledger) "b") "b" = false
       ∧ is_known (mark_done ([] : Ledger) "b" 0) "b" = false
       ∧ is_known (mark_failed ([] : Ledger) "b" "x" 0) "b" = false) :=
  ⟨(c4_is_known_amended [] "b" 0 "x").1, (c4_is_known_amended [] "b" 0 "x").2.1,
   (c4_is_known_amended [] "b" 0 "x").2.2 (by decide)⟩

/-- Claim C10: `resetFailed` modifies only `failed` rows — any entry whose
status is pending, processing or done keeps all four fields unchanged. -/
theorem c10_reset_failed_frame (s : Ledger) (p : String) (e : Entry)
    (hl : lookup s p = some e) (hne : e.status ≠ .failed) :
    lookup (reset_failed s).1 p = some e := by
  rw [lookup_reset_failed, hl]
  simp [hne]

theorem c10_reset_failed_frame_witness :
    lookup (reset_failed [("a", ⟨.done, 0, some 1, none⟩),
                         ("b", ⟨.failed, 0, some 1, some "E"⟩)]).1 "a"
      = some ⟨.done, 0, some 1, none⟩ :=
  c10_reset_failed_frame _ "a" ⟨.done, 0, some 1, none⟩ (by decide) (by decide)

theorem get_pending_cons (x : String × Entry) (l : Ledger) :
    get_pending (x :: l) =
      if x.2.status == .pending then x.1 :: get_pending l else get_pending l := by
  by_cases h : x.2.status = .pending <;> simp [get_pending, h]

theorem get_failed_cons (x : String × Entry) (l : Ledger) :
    get_failed (x :: l) =
      if x.2.status == .failed then x.1 :: get_failed l else get_failed l := by
  by_cases h : x.2.status = .failed <;> simp [get_failed, h]

theorem not_mem_get_pending_of_unknown (s : Ledger) (p : String)
    (hk : is_known s p = false) : p ∉ get_pending s := by
  intro hmem
  unfold get_pending at hmem
  rcases List.mem_map.mp hmem with ⟨r, hr, hfst⟩
  have hrs : r ∈ s := (List.mem_filter.mp hr).1
  have hnil := filter_key_nil_of_unknown s p hk
  have hno := List.filter_eq_nil_iff.mp hnil r hrs
  exact hno (by simp [hfst])

/-- Claim C7: `markPending` never overwrites an existing row (whatever its
status); on an unknown path it inserts exactly one `pending` row, and a
second call leaves that single row with the first call's fields, with
`getPending` containing the path exactly once. -/
theorem c7_mark_pending_no_overwrite (s : Ledger) (p : String) (t t' : Nat) :
    (is_known s p = true → mark_pending s p t = s)
    ∧ (is_known s p = false →
        rowsFor (mark_pending s p t) p = [⟨.pending, t, none, none⟩]
        ∧ rowsFor (mark_pending (mark_pending s p t) p t') p = [⟨.pending, t, none, none⟩]
        ∧ (get_pending (mark_pending (mark_pending s p t) p t')).count p = 1) := by
  constructor
  · intro hk; unfold mark_pending; rw [if_pos hk]
  · intro hk
    have hknil : s.filter (fun r => r.1 == p) = [] := filter_key_nil_of_unknown s p hk
    have h1 : mark_pending s p t = s ++ [(p, ⟨.pending, t, none, none⟩)] := by
      unfold mark_pending; rw [if_neg (by simp [hk])]
    have hk2 : is_known (mark_pending s p t) p = true := is_known_mark_pending_self s p t
    have h2 : mark_pending (mark_pending s p t) p t' = mark_pending s p t := by
      show (if is_known (mark_pending s p t) p then mark_pending s p t
            else mark_pending s p t ++ [(p, ⟨.pending, t', none, none⟩)]) = mark_pending s p t
      rw [if_pos hk2]
    have hrows : rowsFor (mark_pending s p t) p = [⟨.pending, t, none, none⟩] := by
      rw [h1]; unfold rowsFor
      rw [List.filter_append, hknil]
      simp
    refine ⟨hrows, by rw [h2]; exact hrows, ?_⟩
    rw [h2, h1]
    unfold get_pending
    rw [List.filter_append, List.map_append, List.count_append]
    have hzero : (get_pending s).count p = 0 := by
      rw [List.count_eq_zero]
      exact not_mem_get_pending_of_unknown s p hk
    unfold get_pending at hzero
    rw [hzero]
    simp

theorem c7_mark_pending_no_overwrite_witness :
    mark_pending [("a", ⟨.done, 0, some 1, none⟩)] "a" 5 = [("a", ⟨.done, 0, some 1, none⟩)]
    ∧ (rowsFor (mark_pending ([] : Ledger) "b" 3) "b" = [⟨.pending, 3, none, none⟩]
       ∧ rowsFor (mark_pending (mark_pending ([] : Ledger) "b" 3) "b" 7) "b"
           = [⟨.pending, 3, none, none⟩]
       ∧ (get_pending (mark_pending (mark_pending ([] : Ledger) "b" 3) "b" 7)).count "b" = 1) :=
  ⟨(c7_mark_pending_no_overwrite [("a", ⟨.done, 0, some 1, none⟩)] "a" 5 5).1 (by decide),
   (c7_mark_pending_no_overwrite [] "b" 3 7).2 (by decide)⟩

theorem errInv_applyPrim (o : PrimOp) (s : Ledger) (h : ErrInv s) :
    ErrInv (applyPrim o s) := by
  cases o with
  | pend p t =>
      intro q e hl
      simp only [applyPrim] at hl
      rw [lookup_mark_pending] at hl
      split at hl
      · exact h q e hl
      · split at hl
        · injection hl with he
          refine ⟨fun hc => ?_, fun hc => ?_⟩ <;> rw [← he] at hc <;> simp at hc
        · exact h q e hl
  | proc p =>
      intro q e hl
      simp only [applyPrim] at hl
      rw [lookup_mark_processing] at hl
      split at hl
      · cases hl0 : lookup s q with
        | none => rw [hl0] at hl; cases hl
        | some e0 =>
            rw [hl0] at hl
            simp at hl
            refine ⟨fun hc => ?_, fun hc => ?_⟩ <;> rw [← hl] at hc <;> simp at hc
      · exact h q e hl
  | fin p t =>
      intro q e hl
      simp only [applyPrim] at hl
      rw [lookup_mark_done] at hl
      split at hl
      · cases hl0 : lookup s q with
        | none => rw [hl0] at hl; cases hl
        | some e0 =>
            rw [hl0] at hl
            simp at hl
            refine ⟨fun hc => ?_, fun hc => ?_⟩
            · rw [← hl]
            · rw [← hl] at hc; simp at hc
      · exact h q e hl
  | fail p m t =>
      intro q e hl
      simp only [applyPrim] at hl
      rw [lookup_mark_failed] at hl
      split at hl
      · cases hl0 : lookup s q with
        | none => rw [hl0] at hl; cases hl
        | some e0 =>
            rw [hl0] at hl
            simp at hl
            refine ⟨fun hc => ?_, fun hc => ?_⟩
            · rw [← hl] at hc; simp at hc
            · rw [← hl]; simp
      · exact h q e hl
  | reset =>
      intro q e hl
      simp only [applyPrim] at hl
      rw [lookup_reset_failed] at hl
      cases hl0 : lookup s q with
      | none => rw [hl0] at hl; cases hl
      | some e0 =>
          rw [hl0] at hl
          injection hl with he
          by_cases hf : e0.status = .failed
          · simp only [hf, beq_self_eq_true, if_true] at he
            refine ⟨fun hc => ?_, fun hc => ?_⟩ <;> rw [← he] at hc <;> simp at hc
          · have hbe : (e0.status == Status.failed) = false := by simp [hf]
            simp only [hbe, Bool.false_eq_true, if_false] at he
            rw [← he]
            exact h q e0 hl0

theorem errInv_applyPrims (ops : List PrimOp) (s : Ledger) (h : ErrInv s) :
    ErrInv (applyPrims ops s) := by
  induction ops generalizing s with
  | nil => exact h
  | cons o os ih => exact ih _ (errInv_applyPrim o s h)

/-- Claim C6: in every ledger state reachable from empty by any sequence
of `markPending`, `markProcessing`, `markDone`, `markFailed` and
`resetFailed`, a `done` entry has `error = NULL` and a `failed` entry has
`error != NULL`. -/
theorem c6_error_invariant (ops : List PrimOp) (p : String) (e : Entry)
    (hl : lookup (applyPrims ops []) p = some e) :
    (e.status = .done → e.error = none) ∧ (e.status = .failed → e.error ≠ none) :=
  errInv_applyPrims ops []
    (fun q e0 h0 => by rw [lookup_nil] at h0; cases h0) p e hl

theorem c6_error_invariant_witness :
    ((⟨Status.failed, 0, some 1, some "boom"⟩ : Entry).status = .done →
      (⟨Status.failed, 0, some 1, some "boom"⟩ : Entry).error = none)
    ∧ ((⟨Status.failed, 0, some 1, some "boom"⟩ : Entry).status = .failed →
      (⟨Status.failed, 0, some 1, some "boom"⟩ : Entry).error ≠ none) :=
  c6_error_invariant [.pend "a" 0, .fail "a" "boom" 1] "a"
    ⟨.failed, 0, some 1, some "boom"⟩ (by decide)

theorem update_rows_id_of_no_key (s : Ledger) (p : String) (g : Entry → Entry)
    (h : ∀ r ∈ s, ¬(r.1 = p)) :
    update_rows s (fun r => r.1 == p) g = s := by
  induction s with
  | nil => rfl
  | cons r s ih =>
      obtain ⟨a, b⟩ := r
      rw [update_rows_cons]
      have ha : ¬(a = p) := h (a, b) (List.mem_cons_self _ _)
      rw [if_neg (by simp [ha])]
      rw [ih (fun r hr => h r (List.mem_cons_of_mem _ hr))]

theorem get_failed_reset (s : Ledger) : get_failed (reset_failed s).1 = [] := by
  induction s with
  | nil => rfl
  | cons r s ih =>
      obtain ⟨a, b⟩ := r
      have hcons : (reset_failed ((a, b) :: s)).1 =
          (if b.status == Status.failed then
            (a, { b with status := .pending, completed_at := none, error := none })
          else (a, b)) :: (reset_failed s).1 := rfl
      rw [hcons]
      by_cases hf : b.status = .failed <;> simp [hf, get_failed_cons, ih]

theorem mem_get_pending_of_lookup (s : Ledger) (p : String) (e : Entry)
    (hl : lookup s p = some e) (hp : e.status = .pending) : p ∈ get_pending s := by
  unfold lookup at hl
  cases hf : s.find? (fun r => r.1 == p) with
  | none => rw [hf] at hl; cases hl
  | some r =>
      rw [hf] at hl
      injection hl with he
      have hmem := List.mem_of_find?_eq_some hf
      have hkey : r.1 = p := by
        have := List.find?_some hf
        simpa using this
      unfold get_pending
      refine List.mem_map.mpr ⟨r, List.mem_filter.mpr ⟨hmem, ?_⟩, hkey⟩
      simp [he, hp]

theorem length_filter_failed_mark_failed (s : Ledger) (p m : String) (t : Nat)
    (hnd : (s.map Prod.fst).Nodup) (hk : is_known s p = true) (hnf : get_failed s = []) :
    ((mark_failed s p m t).filter (fun r => r.2.status == .failed)).length = 1 := by
  induction s with
  | nil =>
      rw [is_known_eq_true_iff, lookup_nil] at hk
      simp at hk
  | cons r s ih =>
      obtain ⟨a, b⟩ := r
      have hcons : mark_failed ((a, b) :: s) p m t =
          (if a == p then
            (a, { b with status := .failed, completed_at := some t, error := some m })
          else (a, b)) :: mark_failed s p m t := rfl
      rw [hcons]
      rw [get_failed_cons] at hnf
      rw [List.map_cons] at hnd
      have hna := (List.nodup_cons.mp hnd).1
      have hnds := (List.nodup_cons.mp hnd).2
      by_cases hbf : b.status = .failed
      · rw [if_pos (by simp [hbf])] at hnf; cases hnf
      · rw [if_neg (by simp [hbf])] at hnf
        by_cases hap : a = p
        · subst hap
          rw [if_pos (by simp)]
          have hid : mark_failed s a m t = s :=
            update_rows_id_of_no_key s a _
              (fun r hr he => hna (List.mem_map.mpr ⟨r, hr, he⟩))
          rw [hid]
          have hfil : s.filter (fun r => r.2.status == .failed) = [] := by
            unfold get_failed at hnf
            exact List.map_eq_nil_iff.mp hnf
          simp [List.filter_cons, hfil]
        · rw [if_neg (by simp [hap])]
          have hks : is_known s p = true := by
            unfold is_known at hk ⊢
            rw [lookup_cons, if_neg hap] at hk
            exact hk
          have htail := ih hnds hks hnf
          simp [List.filter_cons, hbf, htail]

/-- Claim C5: `resetFailed` moves every failed entry to pending, clearing
`completed_at` and `error`, and returns the number of rows affected; in
particular, from a duplicate-free state where `p` is known and nothing is
failed, `markFailed(p, m)` then `resetFailed()` returns 1, `getPending`
contains `p`, `getFailed` does not, and `p`'s error field is cleared. -/
theorem c5_reset_failed_spec (s : Ledger) (p m : String) (t : Nat) :
    ((reset_failed s).2 = (get_failed s).length
     ∧ (∀ q e, lookup s q = some e → e.status = .failed →
         lookup (reset_failed s).1 q = some ⟨.pending, e.created_at, none, none⟩))
    ∧ ((s.map Prod.fst).Nodup → is_known s p = true → get_failed s = [] →
        (reset_failed (mark_failed s p m t)).2 = 1
        ∧ p ∈ get_pending (reset_failed (mark_failed s p m t)).1
        ∧ p ∉ get_failed (reset_failed (mark_failed s p m t)).1
        ∧ errorOf (reset_failed (mark_failed s p m t)).1 p = some none) := by
  refine ⟨⟨?_, ?_⟩, ?_⟩
  · simp [reset_failed, get_failed]
  · intro q e hl he
    rw [lookup_reset_failed, hl]
    simp [he]
  · intro hnd hk hnf
    have hke := (is_known_eq_true_iff s p).mp hk
    obtain ⟨e0, hl0⟩ : ∃ e0, lookup s p = some e0 := by
      cases hl : lookup s p with
      | none => rw [hl] at hke; cases hke
      | some e0 => exact ⟨e0, rfl⟩
    have hlf : lookup (mark_failed s p m t) p
        = some ⟨.failed, e0.created_at, some t, some m⟩ := by
      rw [lookup_mark_failed, if_pos rfl, hl0]; rfl
    have hlr : lookup (reset_failed (mark_failed s p m t)).1 p
        = some ⟨.pending, e0.created_at, none, none⟩ := by
      rw [lookup_reset_failed, hlf]
      simp
    refine ⟨?_, ?_, ?_, ?_⟩
    · have := length_filter_failed_mark_failed s p m t hnd hk hnf
      simpa [reset_failed] using this
    · exact mem_get_pending_of_lookup _ p _ hlr rfl
    · rw [get_failed_reset]
      exact List.not_mem_nil p
    · unfold errorOf
      rw [hlr]
      rfl

theorem c5_reset_failed_spec_witness :
    ((reset_failed [("b", ⟨.failed, 2, some 3, some "x"⟩)]).2
       = (get_failed [("b", ⟨.failed, 2, some 3, some "x"⟩)]).length
     ∧ lookup (reset_failed [("b", ⟨.failed, 2, some 3, some "x"⟩)]).1 "b"
         = some ⟨.pending, 2, none, none⟩)
    ∧ ((reset_failed (mark_failed [("a", ⟨.pending, 0, none, none⟩)] "a" "E" 1)).2 = 1
       ∧ "a" ∈ get_pending (reset_failed (mark_failed [("a", ⟨.pending, 0, none, none⟩)] "a" "E" 1)).1
       ∧ "a" ∉ get_failed (reset_failed (mark_failed [("a", ⟨.pending, 0, none, none⟩)] "a" "E" 1)).1
       ∧ errorOf (reset_failed (mark_failed [("a", ⟨.pending, 0, none, none⟩)] "a" "E" 1)).1 "a"
           = some none) :=
  ⟨⟨(c5_reset_failed_spec [("b", ⟨.failed, 2, some 3, some "x"⟩)] "b" "E" 0).1.1,
    (c5_reset_failed_spec [("b", ⟨.failed, 2, some 3, some "x"⟩)] "b" "E" 0).1.2 "b"
      ⟨.failed, 2, some 3, some "x"⟩ (by decide) rfl⟩,
   (c5_reset_failed_spec [("a", ⟨.pending, 0, none, none⟩)] "a" "E" 1).2
     (by decide) (by decide) (by decide)⟩

/-- Claim C1: `_process_file` on a path whose ledger entry has status
`done` returns immediately — no stage collaborator is invoked (empty call
list), no notification is emitted, nothing is archived, and the ledger is
returned unchanged. -/
theorem c1_skip_processed (cfg : Config) (env : Env) (s : Ledger) (p : String)
    (t : Nat) (h : is_processed s p = true) :
    processFile cfg env s p t
      = { ledger := s, calls := [], notifications := [], archived := none } := by
  unfold processFile
  rw [if_pos h]

theorem c1_skip_processed_witness :
    processFile ⟨"k", "Scribe", "iCloud", false, none⟩
        ⟨.error "x", .error "y", .error "z", .ok true, .ok ()⟩
        [("a", ⟨.done, 0, some 1, none⟩)] "a" 7
      = { ledger := [("a", ⟨.done, 0, some 1, none⟩)], calls := [],
          notifications := [], archived := none } :=
  c1_skip_processed ⟨"k", "Scribe", "iCloud", false, none⟩
    ⟨.error "x", .error "y", .error "z", .ok true, .ok ()⟩
    [("a", ⟨.done, 0, some 1, none⟩)] "a" 7 (by decide)

theorem statusOf_mark_failed_self (s : Ledger) (p m : String) (t : Nat)
    (hk : is_known s p = true) :
    statusOf (mark_failed s p m t) p = some .failed
    ∧ errorOf (mark_failed s p m t) p = some (some m) := by
  have hke := (is_known_eq_true_iff s p).mp hk
  cases hl : lookup s p with
  | none => rw [hl] at hke; cases hke
  | some e0 =>
      constructor
      · unfold statusOf; rw [lookup_mark_failed, if_pos rfl, hl]; rfl
      · unfold errorOf; rw [lookup_mark_failed, if_pos rfl, hl]; rfl

/-- Claim C3: for a path not marked done, whenever the stage pipeline
faults — a raised metadata, transcription, rendering, publishing or
archival error, or a `False` return from the publisher (converted to the
`RuntimeError` stage failure) — `_process_file` records status `failed`
with the fault's message as the entry's error, emits exactly one
notification naming the file, and returns normally (the embedding is a
total function, so no exception escapes to abort a batch or the watch
loop; summarizer faults are caught locally and never reach here). -/
theorem c3_failure_handling (cfg : Config) (env : Env) (s : Ledger) (p : String)
    (t : Nat) (m : String) (hnp : is_processed s p = false)
    (hout : processOutcome cfg env = some m) :
    statusOf (processFile cfg env s p t).ledger p = some .failed
    ∧ errorOf (processFile cfg env s p t).ledger p = some (some m)
    ∧ (processFile cfg env s p t).notifications = ["Failed: " ++ baseName p] := by
  have hk2 : is_known
      (mark_processing (if is_known s p then s else mark_pending s p t) p) p = true := by
    rw [is_known_mark_processing]
    by_cases hk : is_known s p = true
    · rw [if_pos hk]; exact hk
    · rw [if_neg hk]; exact is_known_mark_pending_self s p t
  have hspec := statusOf_mark_failed_self
    (mark_processing (if is_known s p then s else mark_pending s p t) p) p m t hk2
  have hnp' : ¬ (is_processed s p = true) := by simp [hnp]
  unfold processFile
  rw [if_neg hnp']
  cases henv : env.metadataRes with
  | error e =>
      have hcalc : processOutcome cfg env = some e := by simp [processOutcome, henv]
      rw [hcalc] at hout
      injection hout with hem
      subst hem
      simp only [henv]
      exact ⟨hspec.1, hspec.2, by trivial⟩
  | ok md =>
      cases htr : env.transcribeRes with
      | error e =>
          have hcalc : processOutcome cfg env = some e := by
            simp [processOutcome, henv, htr]
          rw [hcalc] at hout
          injection hout with hem
          subst hem
          simp only [henv, htr]
          exact ⟨hspec.1, hspec.2, by trivial⟩
      | ok resp =>
          cases hrf : renderFault (generatedOf cfg env resp).2 with
          | some e =>
              have hcalc : processOutcome cfg env = some e := by
                simp [processOutcome, henv, htr, hrf]
              rw [hcalc] at hout
              injection hout with hem
              subst hem
              simp only [henv, htr, hrf]
              exact ⟨hspec.1, hspec.2, by trivial⟩
          | none =>
              cases hpub : env.publishRes with
              | error e =>
                  have hcalc : processOutcome cfg env = some e := by
                    simp [processOutcome, henv, htr, hrf, hpub]
                  rw [hcalc] at hout
                  injection hout with hem
                  subst hem
                  simp only [henv, htr, hrf, hpub]
                  exact ⟨hspec.1, hspec.2, by trivial⟩
              | ok b =>
                  cases b with
                  | false =>
                      have hcalc : processOutcome cfg env
                          = some "Apple Notes creation failed" := by
                        simp [processOutcome, henv, htr, hrf, hpub]
                      rw [hcalc] at hout
                      injection hout with hem
                      subst hem
                      simp only [henv, htr, hrf, hpub]
                      exact ⟨hspec.1, hspec.2, by trivial⟩
                  | true =>
                      by_cases hod : cfg.output_dir = true
                      · cases hw : env.writeRes with
                        | error e =>
                            have hcalc : processOutcome cfg env = some e := by
                              simp [processOutcome, henv, htr, hrf, hpub, hod, hw]
                            rw [hcalc] at hout
                            injection hout with hem
                            subst hem
                            simp only [henv, htr, hrf, hpub, hod, hw, if_true]
                            exact ⟨hspec.1, hspec.2, by trivial⟩
                        | ok u =>
                            have hcalc : processOutcome cfg env = none := by
                              simp [processOutcome, henv, htr, hrf, hpub, hod, hw]
                            rw [hcalc] at hout
                            cases hout
                      · have hod' : cfg.output_dir = false := by simpa using hod
                        have hcalc : processOutcome cfg env = none := by
                          simp [processOutcome, henv, htr, hrf, hpub, hod']
                        rw [hcalc] at hout
                        cases hout

theorem c3_failure_handling_witness :
    statusOf (processFile ⟨"k", "Scribe", "iCloud", false, none⟩
        ⟨.ok ⟨"T", "Jan 1, 2024", "2024-01-01", 0⟩, .error "network down",
         .error "s", .ok true, .ok ()⟩
        [] "/dir/a.m4a" 5).ledger "/dir/a.m4a" = some .failed
    ∧ errorOf (processFile ⟨"k", "Scribe", "iCloud", false, none⟩
        ⟨.ok ⟨"T", "Jan 1, 2024", "2024-01-01", 0⟩, .error "network down",
         .error "s", .ok true, .ok ()⟩
        [] "/dir/a.m4a" 5).ledger "/dir/a.m4a" = some (some "network down")
    ∧ (processFile ⟨"k", "Scribe", "iCloud", false, none⟩
        ⟨.ok ⟨"T", "Jan 1, 2024", "2024-01-01", 0⟩, .error "network down",
         .error "s", .ok true, .ok ()⟩
        [] "/dir/a.m4a" 5).notifications = ["Failed: a.m4a"] :=
  have h := c3_failure_handling ⟨"k", "Scribe", "iCloud", false, none⟩
    ⟨.ok ⟨"T", "Jan 1, 2024", "2024-01-01", 0⟩, .error "network down",
     .error "s", .ok true, .ok ()⟩
    [] "/dir/a.m4a" 5 "network down" rfl rfl
  ⟨h.1, h.2.1, h.2.2.trans (by decide)⟩

theorem safe_pend (p : String) (t : Nat) (s : Ledger) : SafeStep (.pend p t) s := by
  intro q a b ha hb
  simp only [applyPrim] at hb
  unfold statusOf at ha hb
  rw [lookup_mark_pending] at hb
  split at hb
  next hknown =>
    rw [ha] at hb
    injection hb with he
    exact Or.inl (Or.inl he)
  next hknown =>
    split at hb
    next heq =>
      have hnone : lookup s q = none := by
        rw [heq]
        exact (is_known_eq_false_iff s p).mp (by simpa using hknown)
      rw [hnone] at ha
      cases ha
    next heq =>
      rw [ha] at hb
      injection hb with he
      exact Or.inl (Or.inl he)

theorem safe_reset (s : Ledger) : SafeStep .reset s := by
  intro q a b ha hb
  simp only [applyPrim] at hb
  unfold statusOf at ha hb
  rw [lookup_reset_failed] at hb
  cases hl : lookup s q with
  | none => rw [hl] at ha; cases ha
  | some e =>
      rw [hl] at ha hb
      injection ha with ha'
      injection hb with hb'
      by_cases hf : e.status = .failed
      · have hb2 : b = .pending := by rw [← hb']; simp [hf]
        have ha2 : a = .failed := by rw [← ha']; exact hf
        rw [ha2, hb2]
        exact Or.inl (Or.inr (Or.inr (Or.inr (Or.inr ⟨rfl, rfl, rfl⟩))))
      · have hb2 : b = e.status := by rw [← hb']; simp [hf]
        have ha2 : a = e.status := ha'.symm
        rw [ha2, hb2]
        exact Or.inl (Or.inl rfl)

theorem safe_proc (s : Ledger) (p : String) (hnd : statusOf s p ≠ some .done) :
    SafeStep (.proc p) s := by
  intro q a b ha hb
  simp only [applyPrim] at hb
  unfold statusOf at ha hb hnd
  rw [lookup_mark_processing] at hb
  split at hb
  next heq =>
    subst heq
    cases hl : lookup s q with
    | none => rw [hl] at ha; cases ha
    | some e =>
        rw [hl] at ha hb hnd
        injection ha with ha'
        injection hb with hb'
        have hb2 : b = .processing := hb'.symm
        have hnd' : e.status ≠ .done := by
          intro hc
          exact hnd (by simp [hc])
        rw [← ha', hb2]
        cases hs : e.status with
        | pending => exact Or.inl (Or.inr (Or.inl ⟨rfl, rfl⟩))
        | processing => exact Or.inl (Or.inl rfl)
        | done => exact absurd hs hnd'
        | failed => exact Or.inr ⟨rfl, rfl⟩
  next hne =>
    rw [ha] at hb
    injection hb with he
    exact Or.inl (Or.inl he)

theorem safe_fin (s : Ledger) (p : String) (t : Nat)
    (h : statusOf s p = some .processing) : SafeStep (.fin p t) s := by
  intro q a b ha hb
  simp only [applyPrim] at hb
  unfold statusOf at ha hb h
  rw [lookup_mark_done] at hb
  split at hb
  next heq =>
    subst heq
    cases hl : lookup s q with
    | none => rw [hl] at ha; cases ha
    | some e =>
        rw [hl] at ha hb h
        injection ha with ha'
        injection hb with hb'
        injection h with h'
        have ha2 : a = .processing := by rw [← ha', h']
        have hb2 : b = .done := hb'.symm
        rw [ha2, hb2]
        exact Or.inl (Or.inr (Or.inr (Or.inl ⟨rfl, rfl⟩)))
  next hne =>
    rw [ha] at hb
    injection hb with he
    exact Or.inl (Or.inl he)

theorem safe_fail (s : Ledger) (p m : String) (t : Nat)
    (h : statusOf s p = some .processing) : SafeStep (.fail p m t) s := by
  intro q a b ha hb
  simp only [applyPrim] at hb
  unfold statusOf at ha hb h
  rw [lookup_mark_failed] at hb
  split at hb
  next heq =>
    subst heq
    cases hl : lookup s q with
    | none => rw [hl] at ha; cases ha
    | some e =>
        rw [hl] at ha hb h
        injection ha with ha'
        injection hb with hb'
        injection h with h'
        have ha2 : a = .processing := by rw [← ha', h']
        have hb2 : b = .failed := hb'.symm
        rw [ha2, hb2]
        exact Or.inl (Or.inr (Or.inr (Or.inr (Or.inl ⟨rfl, rfl⟩))))
  next hne =>
    rw [ha] at hb
    injection hb with he
    exact Or.inl (Or.inl he)

theorem procPrims_safe (cfg : Config) (env : Env) (s : Ledger) (p : String) (t : Nat) :
    ∀ x ∈ primTrace (procPrims cfg env s p t) s, SafeStep x.1 x.2 := by
  intro x hx
  unfold procPrims at hx
  by_cases hdone : is_processed s p = true
  · rw [if_pos hdone] at hx
    simp [primTrace] at hx
  · have hdone' : is_processed s p = false := by simpa using hdone
    rw [if_neg hdone] at hx
    have hnd := is_processed_false_statusOf s p hdone'
    by_cases hk : is_known s p = true
    · rw [if_pos hk, List.nil_append] at hx
      cases hout : processOutcome cfg env with
      | none =>
          rw [hout] at hx
          simp only [List.cons_append, List.nil_append, primTrace,
            List.mem_cons, List.not_mem_nil, or_false] at hx
          rcases hx with rfl | rfl
          · exact safe_proc s p hnd
          · refine safe_fin _ p t ?_
            show statusOf (applyPrim (.proc p) s) p = some .processing
            simp only [applyPrim]
            exact statusOf_mark_processing_self s p hk
      | some m =>
          rw [hout] at hx
          simp only [List.cons_append, List.nil_append, primTrace,
            List.mem_cons, List.not_mem_nil, or_false] at hx
          rcases hx with rfl | rfl
          · exact safe_proc s p hnd
          · refine safe_fail _ p m t ?_
            show statusOf (applyPrim (.proc p) s) p = some .processing
            simp only [applyPrim]
            exact statusOf_mark_processing_self s p hk
    · have hk' : is_known s p = false := by simpa using hk
      rw [if_neg hk] at hx
      have hk1 : is_known (mark_pending s p t) p = true := is_known_mark_pending_self s p t
      have hs1 : statusOf (mark_pending s p t) p = some .pending :=
        statusOf_mark_pending_self s p t hk'
      cases hout : processOutcome cfg env with
      | none =>
          rw [hout] at hx
          simp only [List.cons_append, List.nil_append, primTrace,
            List.mem_cons, List.not_mem_nil, or_false] at hx
          rcases hx with rfl | rfl | rfl
          · exact safe_pend p t s
          · refine safe_proc _ p ?_
            show statusOf (applyPrim (.pend p t) s) p ≠ some .done
            simp only [applyPrim]
            rw [hs1]
            simp
          · refine safe_fin _ p t ?_
            show statusOf (applyPrim (.proc p) (applyPrim (.pend p t) s)) p
              = some .processing
            simp only [applyPrim]
            exact statusOf_mark_processing_self _ p hk1
      | some m =>
          rw [hout] at hx
          simp only [List.cons_append, List.nil_append, primTrace,
            List.mem_cons, List.not_mem_nil, or_false] at hx
          rcases hx with rfl | rfl | rfl
          · exact safe_pend p t s
          · refine safe_proc _ p ?_
            show statusOf (applyPrim (.pend p t) s) p ≠ some .done
            simp only [applyPrim]
            rw [hs1]
            simp
          · refine safe_fail _ p m t ?_
            show statusOf (applyPrim (.proc p) (applyPrim (.pend p t) s)) p
              = some .processing
            simp only [applyPrim]
            exact statusOf_mark_processing_self _ p hk1

theorem orchPrims_safe (o : OrchOp) (s : Ledger) :
    ∀ x ∈ primTrace (orchPrims o s) s, SafeStep x.1 x.2 := by
  cases o with
  | process cfg env p t => exact procPrims_safe cfg env s p t
  | backfillMark p t =>
      intro x hx
      simp only [orchPrims] at hx
      by_cases hk : is_known s p = true
      · rw [if_pos hk] at hx
        simp [primTrace] at hx
      · rw [if_neg hk] at hx
        simp only [primTrace, List.mem_cons, List.not_mem_nil, or_false] at hx
        rcases hx with rfl
        exact safe_pend p t s
  | retryReset =>
      intro x hx
      simp only [orchPrims, primTrace, List.mem_cons, List.not_mem_nil, or_false] at hx
      rcases hx with rfl
      exact safe_reset s

theorem orchTrace_safe (ops : List OrchOp) (s : Ledger) :
    ∀ x ∈ orchTrace ops s, SafeStep x.1 x.2 := by
  induction ops generalizing s with
  | nil => intro x hx; simp [orchTrace] at hx
  | cons o os ih =>
      intro x hx
      simp only [orchTrace] at hx
      rcases List.mem_append.mp hx with h | h
      · exact orchPrims_safe o s x h
      · exact ih _ x h

theorem processFile_ledger_eq_prims (cfg : Config) (env : Env) (s : Ledger)
    (p : String) (t : Nat) :
    (processFile cfg env s p t).ledger = applyPrims (procPrims cfg env s p t) s := by
  unfold processFile procPrims
  by_cases hdone : is_processed s p = true
  · rw [if_pos hdone, if_pos hdone]; rfl
  · rw [if_neg hdone, if_neg hdone]
    cases henv : env.metadataRes with
    | error e =>
        have hcalc : processOutcome cfg env = some e := by simp [processOutcome, henv]
        rw [hcalc]
        simp only [henv]
        by_cases hk : is_known s p = true <;> simp [hk, applyPrims, applyPrim]
    | ok md =>
        cases htr : env.transcribeRes with
        | error e =>
            have hcalc : processOutcome cfg env = some e := by
              simp [processOutcome, henv, htr]
            rw [hcalc]
            simp only [henv, htr]
            by_cases hk : is_known s p = true <;> simp [hk, applyPrims, applyPrim]
        | ok resp =>
            cases hrf : renderFault (generatedOf cfg env resp).2 with
            | some e =>
                have hcalc : processOutcome cfg env = some e := by
                  simp [processOutcome, henv, htr, hrf]
                rw [hcalc]
                simp only [henv, htr, hrf]
                by_cases hk : is_known s p = true <;> simp [hk, applyPrims, applyPrim]
            | none =>
                cases hpub : env.publishRes with
                | error e =>
                    have hcalc : processOutcome cfg env = some e := by
                      simp [processOutcome, henv, htr, hrf, hpub]
                    rw [hcalc]
                    simp only [henv, htr, hrf, hpub]
                    by_cases hk : is_known s p = true <;> simp [hk, applyPrims, applyPrim]
                | ok b =>
                    cases b with
                    | false =>
                        have hcalc : processOutcome cfg env
                            = some "Apple Notes creation failed" := by
                          simp [processOutcome, henv, htr, hrf, hpub]
                        rw [hcalc]
                        simp only [henv, htr, hrf, hpub]
                        by_cases hk : is_known s p = true <;>
                          simp [hk, applyPrims, applyPrim]
                    | true =>
                        by_cases hod : cfg.output_dir = true
                        · cases hw : env.writeRes with
                          | error e =>
                              have hcalc : processOutcome cfg env = some e := by
                                simp [processOutcome, henv, htr, hrf, hpub, hod, hw]
                              rw [hcalc]
                              simp only [henv, htr, hrf, hpub, hod, hw, if_true]
                              by_cases hk : is_known s p = true <;>
                                simp [hk, applyPrims, applyPrim]
                          | ok u =>
                              have hcalc : processOutcome cfg env = none := by
                                simp [processOutcome, henv, htr, hrf, hpub, hod, hw]
                              rw [hcalc]
                              simp only [henv, htr, hrf, hpub, hod, hw, if_true]
                              by_cases hk : is_known s p = true <;>
                                simp [hk, applyPrims, applyPrim]
                        · have hod' : cfg.output_dir = false := by simpa using hod
                          have hcalc : processOutcome cfg env = none := by
                            simp [processOutcome, henv, htr, hrf, hpub, hod']
                          rw [hcalc]
                          simp only [henv, htr, hrf, hpub, hod']
                          by_cases hk : is_known s p = true <;>
                            simp [hk, applyPrims, applyPrim]

/-- Claim C2 counterexample: re-invoking `_process_file` on a path whose
entry is `failed` calls `mark_processing` directly, moving the entry from
`failed` to `processing` without any `resetFailed` — a step outside the
claimed edge set.  The trace below runs `_process_file` twice on the same
path with a metadata stage that raises `"boom"`. -/
theorem c2_counterexample :
    (PrimOp.proc "a",
     ([("a", ⟨Status.failed, 0, some 0, some "boom"⟩)] : Ledger)) ∈
      orchTrace
        [.process ⟨"k", "Scribe", "iCloud", false, none⟩
           ⟨.error "boom", .error "t", .error "s", .ok true, .ok ()⟩ "a" 0,
         .process ⟨"k", "Scribe", "iCloud", false, none⟩
           ⟨.error "boom", .error "t", .error "s", .ok true, .ok ()⟩ "a" 1] []
    ∧ statusOf ([("a", ⟨Status.failed, 0, some 0, some "boom"⟩)] : Ledger) "a"
        = some .failed
    ∧ statusOf (applyPrim (.proc "a")
        ([("a", ⟨Status.failed, 0, some 0, some "boom"⟩)] : Ledger)) "a"
        = some .processing
    ∧ ¬ claimEdge (.proc "a") .failed .processing := by
  decide

/-- Claim C2 (amended): starting from an empty ledger, along any sequence
of run-mode operations (`_process_file` invocations, backfill
`mark_pending` calls, `reset_failed`), every primitive step moves each
entry's status only along pending→processing, processing→done,
processing→failed, failed→pending (the last only at the explicit reset
step) — or along failed→processing, the edge the code actually takes when
`_process_file` is re-invoked on a failed path (`mark_processing` updates
any non-done entry); `done` remains terminal. -/
theorem c2_state_machine_amended (ops : List OrchOp) (o : PrimOp) (s' : Ledger)
    (hmem : (o, s') ∈ orchTrace ops []) (p : String) (a b : Status)
    (ha : statusOf s' p = some a) (hb : statusOf (applyPrim o s') p = some b) :
    amendEdge o a b :=
  orchTrace_safe ops [] (o, s') hmem p a b ha hb

theorem c2_state_machine_amended_witness :
    amendEdge (.proc "a") .failed .processing :=
  c2_state_machine_amended
    [.process ⟨"k", "Scribe", "iCloud", false, none⟩
       ⟨.error "boom", .error "t", .error "s", .ok true, .ok ()⟩ "a" 0,
     .process ⟨"k", "Scribe", "iCloud", false, none⟩
       ⟨.error "boom", .error "t", .error "s", .ok true, .ok ()⟩ "a" 1]
    (.proc "a") [("a", ⟨Status.failed, 0, some 0, some "boom"⟩)]
    (by decide) "a" .failed .processing (by decide) (by decide)

theorem speakerLabels_nil : speakerLabels [] = [] := rfl

theorem speakerLabels_append (l1 l2 : List FLine) :
    speakerLabels (l1 ++ l2) = speakerLabels l1 ++ speakerLabels l2 := by
  simp [speakerLabels, List.filterMap_append]

theorem speakerLabels_plain_cons (s : String) (ls : List FLine) :
    speakerLabels (FLine.plain s :: ls) = speakerLabels ls := by
  simp [speakerLabels, List.filterMap_cons]

theorem speakerLabels_speaker_cons (n : Nat) (txt : String) (ls : List FLine) :
    speakerLabels (FLine.speakerPara n txt :: ls) = n :: speakerLabels ls := by
  simp [speakerLabels, List.filterMap_cons]

theorem speakerLabels_map_plain (xs : List String) (g : String → String) :
    speakerLabels (xs.map (fun i => FLine.plain (g i))) = [] := by
  induction xs with
  | nil => rfl
  | cons x xs ih => rw [List.map_cons, speakerLabels_plain_cons]; exact ih

theorem speakerLabels_section_html (h : String) (items : List String) :
    speakerLabels (section_html h items) = [] := by
  unfold section_html
  by_cases he : items.isEmpty = true
  · rw [if_pos he]; rfl
  · rw [if_neg he]
    simp only [List.cons_append, List.nil_append, List.append_assoc,
      speakerLabels_append, speakerLabels_plain_cons, speakerLabels_map_plain,
      speakerLabels_nil, List.append_nil]

theorem speakerLabels_summary_html (su : Option Summary) :
    speakerLabels (summary_html su) = [] := by
  cases su with
  | none => rfl
  | some su =>
      simp only [summary_html, List.cons_append, List.nil_append,
        List.append_assoc, speakerLabels_append, speakerLabels_plain_cons,
        speakerLabels_section_html, speakerLabels_nil, List.append_nil]

theorem labels_of_utterances (us : List Utterance) :
    speakerLabels (us.filterMap (fun u =>
      if uText u == "" then none
      else some (FLine.speakerPara (uSpeaker u + 1) (uText u))))
      = (us.filter (fun u => !(uText u == ""))).map (fun u => uSpeaker u + 1) := by
  induction us with
  | nil => rfl
  | cons u us ih =>
      simp only [beq_iff_eq] at ih
      by_cases ht : uText u = ""
      · simp [List.filterMap_cons, List.filter_cons, ht, ih]
      · simp [List.filterMap_cons, List.filter_cons, ht,
          speakerLabels_speaker_cons, ih]

theorem speakerLabels_filterMap_plain_utt (us : List Utterance) :
    speakerLabels (us.filterMap (fun u =>
      if uText u == "" then none
      else some (FLine.plain ("<p>" ++ uText u ++ "</p>")))) = [] := by
  induction us with
  | nil => rfl
  | cons u us ih =>
      simp only [beq_iff_eq] at ih
      by_cases ht : uText u = "" <;>
        simp [List.filterMap_cons, ht, speakerLabels_plain_cons, ih]

theorem speakerLabels_filterMap_plain_par (ps : List String) :
    speakerLabels (ps.filterMap (fun par =>
      if pyStrip par == "" then none
      else some (FLine.plain ("<p>" ++ pyStrip par ++ "</p>")))) = [] := by
  induction ps with
  | nil => rfl
  | cons x ps ih =>
      simp only [beq_iff_eq] at ih
      by_cases ht : pyStrip x = "" <;>
        simp [List.filterMap_cons, ht, speakerLabels_plain_cons, ih]

theorem speakerLabels_multi (us : List Utterance) (title d dur : String)
    (su : Option Summary) :
    speakerLabels (format_multi_speaker us title d dur su)
      = (us.filter (fun u => !(uText u == ""))).map (fun u => uSpeaker u + 1) := by
  unfold format_multi_speaker
  simp only [List.cons_append, List.nil_append, List.append_assoc,
    speakerLabels_append, speakerLabels_plain_cons, speakerLabels_summary_html,
    speakerLabels_nil, List.append_nil, labels_of_utterances]

theorem speakerLabels_single (us : List Utterance) (title d dur : String)
    (su : Option Summary) :
    speakerLabels (format_single_speaker us title d dur su) = [] := by
  unfold format_single_speaker
  simp only [List.cons_append, List.nil_append, List.append_assoc,
    speakerLabels_append, speakerLabels_plain_cons, speakerLabels_summary_html,
    speakerLabels_nil, List.append_nil, speakerLabels_filterMap_plain_utt]

theorem speakerLabels_plain_layout (text title d dur : String)
    (su : Option Summary) :
    speakerLabels (format_plain_text text title d dur su) = [] := by
  unfold format_plain_text
  simp only [List.cons_append, List.nil_append, List.append_assoc,
    speakerLabels_append, speakerLabels_plain_cons, speakerLabels_summary_html,
    speakerLabels_nil, List.append_nil, speakerLabels_filterMap_plain_par]

theorem firstsAux_map_add_one (l seen : List Nat) :
    firstsAux (seen.map (fun n => n + 1)) (l.map (fun n => n + 1))
      = (firstsAux seen l).map (fun n => n + 1) := by
  induction l generalizing seen with
  | nil => rfl
  | cons a l ih =>
      by_cases h : a ∈ seen
      · have hm : a + 1 ∈ seen.map (fun n => n + 1) := List.mem_map.mpr ⟨a, h, rfl⟩
        rw [List.map_cons]
        simp only [firstsAux, if_pos hm, if_pos h]
        exact ih seen
      · have hm : a + 1 ∉ seen.map (fun n => n + 1) := by
          intro hmem
          rcases List.mem_map.mp hmem with ⟨x, hx, he⟩
          have hxa : x = a := by omega
          exact h (hxa ▸ hx)
        rw [List.map_cons]
        simp only [firstsAux, if_neg hm, if_neg h]
        rw [List.map_cons]
        have hcast : (a + 1) :: seen.map (fun n => n + 1)
            = (a :: seen).map (fun n => n + 1) := rfl
        rw [hcast, ih (a :: seen)]

theorem firsts_map_add_one (l : List Nat) :
    firsts (l.map (fun n => n + 1)) = (firsts l).map (fun n => n + 1) :=
  firstsAux_map_add_one l []

/-- Claim C8 counterexample: the renderer numbers speaker labels as the
raw speaker tag plus one, not by order of first appearance.  Utterances
tagged `[1, 0]` (two distinct speakers, speaker tagged 1 appearing first)
render as "Speaker 2:" then "Speaker 1:", so the distinct labels in order
of first appearance are `[2, 1]`, not the claimed `[1, 2]`. -/
theorem c8_counterexample :
    firsts (speakerLabels (format_transcript_lines
        ⟨some [⟨some 1, some "hello"⟩, ⟨some 0, some "world"⟩], []⟩
        ⟨"T", "Jan 1, 2024", "2024-01-01", 65⟩ none none)) = [2, 1]
    ∧ (respTags ⟨some [⟨some 1, some "hello"⟩, ⟨some 0, some "world"⟩], []⟩).length = 2
    ∧ [2, 1] ≠ [1, 2] := by
  decide

/-- Claim C8 (amended): the multi-speaker renderer emits one
"Speaker (tag+1):" label per utterance with nonempty stripped text — the
number is the utterance's raw 0-indexed speaker tag plus one, not a
renumbering by first appearance.  Consequently: a response with 0 or 1
distinct speaker tags renders with no speaker labels at all; a response
whose utterances carry exactly 2 distinct tags and all nonempty text
renders with exactly two distinct labels, namely tag+1 for each distinct
tag in order of the speakers' first appearance. -/
theorem c8_speaker_labels_amended (r : Response) (m : RecordingMetadata)
    (title : Option String) (su : Option Summary) :
    (speakerLabels (format_transcript_lines r m title su) =
      (match get_utterances r with
       | some (u :: us) =>
           if count_speakers (u :: us) > 1 then
             ((u :: us).filter (fun x => !(uText x == ""))).map (fun x => uSpeaker x + 1)
           else []
       | _ => []))
    ∧ ((respTags r).length ≤ 1 →
        speakerLabels (format_transcript_lines r m title su) = [])
    ∧ (∀ us, get_utterances r = some us → (∀ u ∈ us, uText u ≠ "") →
        (respTags r).length = 2 →
        firsts (speakerLabels (format_transcript_lines r m title su))
            = (respTags r).map (fun n => n + 1)
        ∧ (firsts (speakerLabels (format_transcript_lines r m title su))).length = 2) := by
  have hchar : speakerLabels (format_transcript_lines r m title su) =
      (match get_utterances r with
       | some (u :: us) =>
           if count_speakers (u :: us) > 1 then
             ((u :: us).filter (fun x => !(uText x == ""))).map (fun x => uSpeaker x + 1)
           else []
       | _ => []) := by
    unfold format_transcript_lines
    cases hu : get_utterances r with
    | none => simp [speakerLabels_plain_layout]
    | some us =>
        cases us with
        | nil => simp [speakerLabels_plain_layout]
        | cons u us =>
            by_cases hc : count_speakers (u :: us) > 1
            · simp [hc, speakerLabels_multi]
            · simp [hc, speakerLabels_single]
  refine ⟨hchar, ?_, ?_⟩
  · intro hle
    rw [hchar]
    cases hu : get_utterances r with
    | none => rfl
    | some us =>
        cases us with
        | nil => rfl
        | cons u us =>
            have hcnt : count_speakers (u :: us) = (respTags r).length := by
              unfold count_speakers respTags
              rw [hu]
            simp only [hu]
            rw [if_neg (by omega)]
  · intro us hu hne hlen
    cases us with
    | nil =>
        have hu' : r.utterances = some [] := hu
        simp [respTags, get_utterances, hu', firsts, firstsAux] at hlen
    | cons u us' =>
        have htags : respTags r = firsts ((u :: us').map uSpeaker) := by
          unfold respTags
          rw [hu]
        have hcnt : count_speakers (u :: us') = 2 := by
          unfold count_speakers
          rw [← htags, hlen]
        have hfil : (u :: us').filter (fun x => !(uText x == "")) = u :: us' := by
          apply List.filter_eq_self.mpr
          intro a ha
          simp [hne a ha]
        have hlabels : speakerLabels (format_transcript_lines r m title su)
            = ((u :: us').map uSpeaker).map (fun n => n + 1) := by
          rw [hchar]
          simp only [hu]
          rw [if_pos (by omega), hfil, List.map_map]
          rfl
        constructor
        · rw [hlabels, firsts_map_add_one, ← htags]
        · rw [hlabels, firsts_map_add_one, ← htags, List.length_map, hlen]

theorem safe_title_eq_spec_strip (x : String) :
    safe_title x = pyStrip (sanitizeTitleSpec x) := rfl

/-- Claim C9 counterexample: `_save_markdown` additionally strips
leading/trailing whitespace after the claimed retain-only filter, so for
the title `" hi!"` the written filename is `"2024-01-01 - hi.md"` while
the claim's sanitization (filter only, no strip) yields
`"2024-01-01 -  hi.md"`. -/
theorem c9_counterexample :
    sanitizeTitleSpec " hi!" = " hi"
    ∧ save_markdown_filename " hi!" "2024-01-01" = "2024-01-01 - hi.md"
    ∧ save_markdown_filename " hi!" "2024-01-01"
        ≠ "2024-01-01" ++ " - " ++ sanitizeTitleSpec " hi!" ++ ".md" := by
  decide

/-- Claim C9 (amended): when a markdown output directory is configured
and all required stages succeed, the archival step writes the rendered
markdown to the file named `"<date> - <sanitized title>.md"`, where the
date is the metadata date (formatted `%Y-%m-%d`), and the sanitization
retains only alphanumerics, space, hyphen and underscore from the note
title, dropping every other character, and then strips leading/trailing
whitespace. -/
theorem c9_archival_filename_amended (cfg : Config) (env : Env) (s : Ledger)
    (p : String) (t : Nat) (md : RecordingMetadata) (resp : Response)
    (hnp : is_processed s p = false) (hod : cfg.output_dir = true)
    (hmd : env.metadataRes = .ok md) (htr : env.transcribeRes = .ok resp)
    (hout : processOutcome cfg env = none) :
    (processFile cfg env s p t).archived =
      some (md.dateISO ++ " - "
              ++ pyStrip (sanitizeTitleSpec (noteTitleOf cfg env md resp)) ++ ".md",
            format_transcript_markdown resp md (generatedOf cfg env resp).1 none) := by
  have hnp' : ¬ (is_processed s p = true) := by simp [hnp]
  unfold processFile
  rw [if_neg hnp']
  cases hrf : renderFault (generatedOf cfg env resp).2 with
  | some e =>
      have hcalc : processOutcome cfg env = some e := by
        simp [processOutcome, hmd, htr, hrf]
      rw [hcalc] at hout
      cases hout
  | none =>
      cases hpub : env.publishRes with
      | error e =>
          have hcalc : processOutcome cfg env = some e := by
            simp [processOutcome, hmd, htr, hrf, hpub]
          rw [hcalc] at hout
          cases hout
      | ok b =>
          cases b with
          | false =>
              have hcalc : processOutcome cfg env
                  = some "Apple Notes creation failed" := by
                simp [processOutcome, hmd, htr, hrf, hpub]
              rw [hcalc] at hout
              cases hout
          | true =>
              cases hw : env.writeRes with
              | error e =>
                  have hcalc : processOutcome cfg env = some e := by
                    simp [processOutcome, hmd, htr, hrf, hpub, hod, hw]
                  rw [hcalc] at hout
                  cases hout
              | ok u =>
                  simp only [hmd, htr, hrf, hpub, hod, hw, if_true]
                  rfl

theorem c9_archival_filename_amended_witness :
    (processFile ⟨"k", "Scribe", "iCloud", true, none⟩
        ⟨.ok ⟨"My Note!", "Jan 1, 2024", "2024-01-01", 65⟩,
         .ok ⟨none, [⟨[⟨some "yo"⟩]⟩]⟩, .error "s", .ok true, .ok ()⟩
        [] "/dir/a.m4a" 5).archived =
      some ("2024-01-01 - "
              ++ pyStrip (sanitizeTitleSpec (noteTitleOf
                    ⟨"k", "Scribe", "iCloud", true, none⟩
                    ⟨.ok ⟨"My Note!", "Jan 1, 2024", "2024-01-01", 65⟩,
                     .ok ⟨none, [⟨[⟨some "yo"⟩]⟩]⟩, .error "s", .ok true, .ok ()⟩
                    ⟨"My Note!", "Jan 1, 2024", "2024-01-01", 65⟩
                    ⟨none, [⟨[⟨some "yo"⟩]⟩]⟩)) ++ ".md",
            format_transcript_markdown ⟨none, [⟨[⟨some "yo"⟩]⟩]⟩
              ⟨"My Note!", "Jan 1, 2024", "2024-01-01", 65⟩
              (generatedOf ⟨"k", "Scribe", "iCloud", true, none⟩
                 ⟨.ok ⟨"My Note!", "Jan 1, 2024", "2024-01-01", 65⟩,
                  .ok ⟨none, [⟨[⟨some "yo"⟩]⟩]⟩, .error "s", .ok true, .ok ()⟩
                 ⟨none, [⟨[⟨some "yo"⟩]⟩]⟩).1 none) :=
  c9_archival_filename_amended ⟨"k", "Scribe", "iCloud", true, none⟩
    ⟨.ok ⟨"My Note!", "Jan 1, 2024", "2024-01-01", 65⟩,
     .ok ⟨none, [⟨[⟨some "yo"⟩]⟩]⟩, .error "s", .ok true, .ok ()⟩
    [] "/dir/a.m4a" 5 ⟨"My Note!", "Jan 1, 2024", "2024-01-01", 65⟩
    ⟨none, [⟨[⟨some "yo"⟩]⟩]⟩ rfl rfl rfl rfl (by decide)

theorem c8_speaker_labels_amended_witness :
    speakerLabels (format_transcript_lines ⟨some [⟨some 0, some "one"⟩], []⟩
        ⟨"T", "Jan 1, 2024", "2024-01-01", 65⟩ none none) = []
    ∧ (firsts (speakerLabels (format_transcript_lines
          ⟨some [⟨some 0, some "x"⟩, ⟨some 1, some "y"⟩], []⟩
          ⟨"T", "Jan 1, 2024", "2024-01-01", 65⟩ none none))
        = (respTags ⟨some [⟨some 0, some "x"⟩, ⟨some 1, some "y"⟩], []⟩).map
            (fun n => n + 1)
       ∧ (firsts (speakerLabels (format_transcript_lines
            ⟨some [⟨some 0, some "x"⟩, ⟨some 1, some "y"⟩], []⟩
            ⟨"T", "Jan 1, 2024", "2024-01-01", 65⟩ none none))).length = 2) :=
  ⟨(c8_speaker_labels_amended ⟨some [⟨some 0, some "one"⟩], []⟩
      ⟨"T", "Jan 1, 2024", "2024-01-01", 65⟩ none none).2.1 (by decide),
   (c8_speaker_labels_amended ⟨some [⟨some 0, some "x"⟩, ⟨some 1, some "y"⟩], []⟩
      ⟨"T", "Jan 1, 2024", "2024-01-01", 65⟩ none none).2.2
     [⟨some 0, some "x"⟩, ⟨some 1, some "y"⟩] rfl (by decide) (by decide)⟩
